import Mathlib

/-!
Formal model of the browser-test-framework repository (src/index.js and
src/index.test.js), as a shallow embedding in Lean 4.

Console lines are modelled as lists of characters (`Str`), so that the
string operations used by the JavaScript sources (`startsWith`, `includes`,
`replace` with a string pattern, `trim`, regex digit matching, number
formatting in template literals) can be given faithful executable
definitions and reasoned about directly.
-/

/-- Text, modelled as a list of Unicode characters.  JavaScript strings are
UTF-16, but every string the framework manipulates is a sequence of Unicode
scalar values, so a character list is a faithful model. -/
abbrev Str := List Char

/-- Whitespace as recognised by JavaScript `String.prototype.trim` on the
ASCII range (space, tab, line feed, carriage return, vertical tab, form
feed).  The framework only ever trims ASCII text. -/
def isJsSpace (c : Char) : Bool :=
  c == ' ' || c == '\t' || c == '\n' || c == '\r' || c == '\x0b' || c == '\x0c'

/-- JavaScript `text.trim()`: drop whitespace from both ends. -/
def jsTrim (s : Str) : Str :=
  ((s.dropWhile isJsSpace).reverse.dropWhile isJsSpace).reverse

/-- Auxiliary scan for `jsReplaceFirst`: replace the first occurrence of the
nonempty pattern `pat` by `rep`, scanning left to right. -/
def replaceFirstAux (pat rep : Str) : Str → Str
  | [] => []
  | c :: cs =>
    if pat.isPrefixOf (c :: cs) then rep ++ (c :: cs).drop pat.length
    else c :: replaceFirstAux pat rep cs

/-- JavaScript `s.replace(pat, rep)` with a plain-string pattern: replaces
only the first occurrence; an empty pattern inserts `rep` at the front;
a pattern that does not occur leaves the string unchanged. -/
def jsReplaceFirst (s pat rep : Str) : Str :=
  if pat = [] then rep ++ s else replaceFirstAux pat rep s

/-- JavaScript `s.includes(pat)`: substring test. -/
def jsIncludes (pat : Str) : Str → Bool
  | [] => pat.isPrefixOf ([] : Str)
  | c :: cs => pat.isPrefixOf (c :: cs) || jsIncludes pat cs

/-- Numeric value of a list of decimal digit characters (the behaviour of
JavaScript `parseInt` on the digit-only capture of `(\d+)`). -/
def parseDigits (ds : Str) : Nat :=
  ds.foldl (fun acc c => acc * 10 + (c.toNat - 48)) 0

/-- First match of the regular expression `pat(\d+)` in a line, returning the
parsed capture: scan left to right for an occurrence of `pat` followed by at
least one decimal digit, and take the maximal digit run there.  This models
`text.match(/... (\d+)/)` followed by `parseInt(match[1])`. -/
def matchNumAfter (pat : Str) : Str → Option Nat
  | [] => none
  | c :: cs =>
    if pat.isPrefixOf (c :: cs) then
      let ds := ((c :: cs).drop pat.length).takeWhile Char.isDigit
      if ds = [] then matchNumAfter pat cs else some (parseDigits ds)
    else matchNumAfter pat cs

/-- Decimal digit character, as produced by JavaScript number-to-string
conversion of a nonnegative integer (each digit is `'0' + d`). -/
def decDigitChar (m : Nat) : Char := Char.ofNat (48 + m % 10)

/-- Digit-by-digit recursion for `natToText`; the first argument is fuel
bounding the number of digits, so the recursion is structural. -/
def natToTextAux : Nat → Nat → Str
  | 0, _ => []
  | fuel + 1, n =>
    if n < 10 then [decDigitChar n]
    else natToTextAux fuel (n / 10) ++ [decDigitChar (n % 10)]

/-- Decimal representation of a natural number as text, the behaviour of a
JavaScript template literal `${n}` on a nonnegative integer.  A number has
at most as many digits as its value, so `n + 1` fuel always suffices. -/
def natToText (n : Nat) : Str := natToTextAux (n + 1) n

/-! ## The extraction function of src/index.test.js

`extractTestResults(consoleMessages)` scans every captured console line once,
accumulating `results`, `totalTests` and `passedTests`; afterwards, if no
per-case line was seen but a total was recovered from the header, it
synthesizes generic records.  Log-only branches of the source (the
`"✅ Passed:"` and `"✅ All tests passed"` checks, which only `console.log`)
do not affect the returned value and are omitted from the model. -/

/-- One extracted record: `{ name, status, error? }` from the source.
`status` is the literal text `"passed"` or `"failed"`. -/
structure ExtractedResult where
  name : Str
  status : Str
  error : Option Str
deriving DecidableEq, Repr

/-- Accumulator of the extraction loop. -/
structure ExtractState where
  results : List ExtractedResult
  totalTests : Nat
  passedTests : Nat
deriving DecidableEq, Repr

/-- The `"📊 Tests:"` header check of the loop body: recover `totalTests`
from a header line; no other field changes. -/
def headerStep (st : ExtractState) (text : Str) : ExtractState :=
  if jsIncludes "📊 Tests:".data text then
    match matchNumAfter "📊 Tests: ".data text with
    | some n => { st with totalTests := n }
    | none => st
  else st

/-- One iteration of the `for (const msg of consoleMessages)` loop of
`extractTestResults`. -/
def extractStep (st : ExtractState) (text : Str) : ExtractState :=
  let st1 := headerStep st text
  if List.isPrefixOf "✅ ".data text then
    { st1 with
      results := st1.results ++
        [⟨jsTrim (jsReplaceFirst text "✅ ".data []), "passed".data, none⟩],
      passedTests := st1.passedTests + 1 }
  else if List.isPrefixOf "❌ ".data text then
    { st1 with
      results := st1.results ++
        [⟨jsTrim (jsReplaceFirst text "❌ ".data []), "failed".data,
          some "Test assertion failed".data⟩] }
  else st1

/-- The generic records synthesized when no per-case line was captured:
`Browser Test {i}` for `i = 1..totalTests`, the first `passedTests` of them
passed and the rest failed. -/
def syntheticResults (totalTests passedTests : Nat) : List ExtractedResult :=
  (List.range totalTests).map fun i =>
    ⟨"Browser Test ".data ++ natToText (i + 1),
      if i + 1 ≤ passedTests then "passed".data else "failed".data, none⟩

/-- `extractTestResults` of src/index.test.js, over the list of captured
console message texts. -/
def extractTestResults (consoleMessages : List Str) : List ExtractedResult :=
  let st := consoleMessages.foldl extractStep ⟨[], 0, 0⟩
  if st.results.length = 0 ∧ 0 < st.totalTests then
    syntheticResults st.totalTests st.passedTests
  else st.results

/-- The records one console line contributes to `results`: the net effect
of the two marker branches of `extractStep` on the `results` field. -/
def lineRecord (l : Str) : List ExtractedResult :=
  if List.isPrefixOf "✅ ".data l then
    [⟨jsTrim (jsReplaceFirst l "✅ ".data []), "passed".data, none⟩]
  else if List.isPrefixOf "❌ ".data l then
    [⟨jsTrim (jsReplaceFirst l "❌ ".data []), "failed".data,
      some "Test assertion failed".data⟩]
  else []

/-- The records a sequence of console lines contributes to `results`. -/
def recordsOf (ls : List Str) : List ExtractedResult :=
  ls.flatMap lineRecord

/-! ## The test runner of src/index.js

`TestRunner` holds counters, the accumulated results and the pending queue.
Test bodies are `async` functions awaited one at a time by a sequential
`for`-loop, so a body is modelled by its observable outcome: either it
completes without raising, or it raises an error value.  Timing
(`performance.now`, the formatted duration) is host input and enters the
model as the parameter `d` of a run; scheduling (`DOMContentLoaded`,
`setTimeout`) only decides *when* `runPendingTests` fires, not what it does,
so the model exposes `runPendingTests` as a state transformer. -/

/-- A raised error value, as observed by `logSummary`: either an
`AssertionError` (whose `log()` method prints a console group whose exact
lines depend on the host's `console.dir` serialisation, kept abstract as
`logLines`), or a plain error with a `message`. -/
inductive JsError where
  | assertionError (logLines : List Str)
  | plainError (message : Str)
deriving DecidableEq, Repr

/-- The console lines printed for a failed result by `logSummary`:
`result.error.log()` for an `AssertionError`, else
``console.error(`  ${result.error.message}`)``. -/
def errorLines : JsError → List Str
  | .assertionError ls => ls
  | .plainError m => ["  ".data ++ m]

/-- One entry of `this.testResults`:
`{ name, passed: true }` or `{ name, passed: false, error }`. -/
structure RunResult where
  name : Str
  passed : Bool
  error : Option JsError
deriving DecidableEq, Repr

/-- A registered test case: its name and the observable outcome of awaiting
its body (`none` = completes, `some e` = raises `e`). -/
structure TestCase where
  name : Str
  outcome : Option JsError
deriving DecidableEq, Repr

/-- The mutable fields of `TestRunner` that `enqueueTest` and
`runPendingTests` read and write.  `startTime` and the scheduling flags
(`autoRunScheduled`, `domContentLoaded`) only influence timing, not the
observable run behaviour modelled here. -/
structure RunnerState where
  passed : Nat
  failed : Nat
  total : Nat
  testResults : List RunResult
  testQueue : List TestCase
deriving DecidableEq, Repr

/-- `enqueueTest(name, fn)`: push onto the pending queue.  (The subsequent
`scheduleAutoRun` call only arranges a later `runPendingTests`.) -/
def enqueueTest (st : RunnerState) (tc : TestCase) : RunnerState :=
  { st with testQueue := st.testQueue ++ [tc] }

/-- The body of the run loop for one test case: `await testCase.fn()` in a
`try`, incrementing `passed`/`failed` and appending the result record. -/
def runTest (st : RunnerState) (tc : TestCase) : RunnerState :=
  match tc.outcome with
  | none =>
    { st with passed := st.passed + 1,
              testResults := st.testResults ++ [⟨tc.name, true, none⟩] }
  | some e =>
    { st with failed := st.failed + 1,
              testResults := st.testResults ++ [⟨tc.name, false, some e⟩] }

/-- The result record the run loop appends for one test case. -/
def mkRunResult (tc : TestCase) : RunResult :=
  match tc.outcome with
  | none => ⟨tc.name, true, none⟩
  | some e => ⟨tc.name, false, some e⟩

/-- The boolean `logSummary` returns: `false` when `this.failed > 0`, else
`true`. -/
def logSummaryRet (failed : Nat) : Bool :=
  if failed > 0 then false else true

/-- The console lines one result contributes to the report: its marker
line, followed for a failure by its error diagnostics. -/
def resultLines (r : RunResult) : List Str :=
  if r.passed then ["✅ ".data ++ r.name]
  else ("❌ ".data ++ r.name) ::
    (match r.error with
     | some e => errorLines e
     | none => [])

/-- The sequence of console lines `logSummary` prints, in order: the
`📊 Tests:` header, one marker line per result (failed results followed by
their error diagnostics), a blank line, the `✅ Passed:` line, the
`❌ Failed:` line when there were failures, the duration line (`d` is the
host-supplied formatted seconds value), and the final verdict line. -/
def logSummaryLines (total : Nat) (results : List RunResult)
    (passed failed : Nat) (d : Str) : List Str :=
  ["\n📊 Tests: ".data ++ natToText total]
  ++ results.flatMap resultLines
  ++ ["\n".data]
  ++ ["✅ Passed: ".data ++ natToText passed]
  ++ (if failed > 0 then ["❌ Failed: ".data ++ natToText failed] else [])
  ++ ["⏱️ Duration: ".data ++ d ++ "s".data]
  ++ (if failed > 0 then ["\n❌ Tests failed".data]
      else ["\n✅ All tests passed".data])

/-- `runPendingTests()`: on an empty queue, `return` immediately (JavaScript
`undefined`, modelled `none`, with no console report, modelled `none`).
Otherwise `start()` resets the counters and results, `total` is set to the
queue length, the queue is drained into `testsToRun`, each case is awaited
in order, and `logSummary()` prints the report and yields the boolean.
The value is `(final state, returned value, report lines)`. -/
def runPendingTests (st : RunnerState) (d : Str) :
    RunnerState × Option Bool × Option (List Str) :=
  if st.testQueue = [] then (st, none, none)
  else
    let testsToRun := st.testQueue
    let st1 : RunnerState := ⟨0, 0, st.testQueue.length, [], []⟩
    let st2 := testsToRun.foldl runTest st1
    (st2, some (logSummaryRet st2.failed),
      some (logSummaryLines st2.total st2.testResults st2.passed st2.failed d))

/-! ## assert.deepEqual and its structural diff (src/index.js)

JavaScript values are modelled with an explicit heap so that `===` on
objects is reference (address) equality and cyclic object graphs are
representable.  Numbers in every claim are small integers, so finite
numbers are modelled as integers; `NaN` is a distinguished value of its
own, because `NaN === NaN` is false in JavaScript and that drives
`deepEqual`'s behaviour on self-comparison.  (All `NaN` bit patterns
behave alike under `===`, so one value suffices.)  `diff` recurses
through object references with no
cycle guard, so the model gives it explicit fuel: `none` means the
JavaScript generator would still be running (it never means a value). -/

/-- A JavaScript value: a primitive, or a reference into the object heap. -/
inductive JsVal where
  | undefined
  | null
  | num (n : Int)
  | nan
  | str (s : Str)
  | bool (b : Bool)
  | ref (addr : Nat)
deriving DecidableEq, Repr

/-- The object heap: each address holds the own enumerable properties of one
object, in `Object.keys` order.  Cyclic graphs are expressible. -/
def JsHeap := Nat → List (Str × JsVal)

/-- Whether a value is the number `NaN`. -/
def jsIsNaN : JsVal → Bool
  | .nan => true
  | _ => false

/-- JavaScript `a === b` on model values: `NaN` is strictly equal to
nothing, not even itself; every other primitive compares by value and
references compare by address, which is equality of `JsVal`. -/
def jsStrictEq (a b : JsVal) : Bool :=
  if jsIsNaN a || jsIsNaN b then false else a = b

/-- `isObject(value)` from the source: `value != null && typeof value ===
"object"`.  Precisely the references: `null` is excluded by the first
conjunct, and every other primitive fails `typeof value === "object"`. -/
def isObject : JsVal → Bool
  | .ref _ => true
  | _ => false

/-- The own properties of a value: the heap entry of a reference, nothing
for a primitive. -/
def propsOf (H : JsHeap) : JsVal → List (Str × JsVal)
  | .ref a => H a
  | _ => []

/-- JavaScript property read `o[key]` on own properties: the first binding
of `key`, or `undefined` when absent. -/
def jsGet (props : List (Str × JsVal)) (k : Str) : JsVal :=
  match props.find? (fun p => p.1 = k) with
  | some p => p.2
  | none => .undefined

/-- `new Set([...Object.keys(a), ...Object.keys(b)])` iterated in insertion
order: keep the first occurrence of each key. -/
def setOrdered (l : List Str) : List Str :=
  l.foldl (fun acc k => if k ∈ acc then acc else acc ++ [k]) []

/-- One difference yielded by `diff`: `{ path, actual, expected }`. -/
structure Difference where
  path : List Str
  actual : JsVal
  expected : JsVal
deriving DecidableEq, Repr

/-- The generator `diff(a, b, path)` of `assert.deepEqual`, with fuel for
the unguarded recursion through object references: identical values (`===`)
yield nothing; if either operand is not an object, one difference is
yielded; otherwise every key of either object is visited in `Set` insertion
order and the diffs of the two property values (absent ones read as
`undefined`) are yielded in order. -/
def diff (H : JsHeap) : Nat → List Str → JsVal → JsVal → Option (List Difference)
  | 0, _, _, _ => none
  | _fuel + 1, path, a, b =>
    if jsStrictEq a b then some []
    else if !isObject a || !isObject b then some [⟨path, a, b⟩]
    else
      let pa := propsOf H a
      let pb := propsOf H b
      let keys := setOrdered (pa.map (·.1) ++ pb.map (·.1))
      (keys.mapM fun key =>
        diff H _fuel (path ++ [key]) (jsGet pa key) (jsGet pb key)).map
        List.flatten

/-- The failure value `assert.deepEqual` throws: an `AssertionError` carrying
the message, the operands and the full difference list. -/
structure DeepEqualFailure where
  message : Str
  actual : JsVal
  expected : JsVal
  differences : List Difference
deriving DecidableEq, Repr

/-- `assert.deepEqual(actual, expected)`: collect `[...diff(actual,
expected)]`; if the list is nonempty, throw an `AssertionError` carrying it,
else return normally. -/
def deepEqual (H : JsHeap) (fuel : Nat) (actual expected : JsVal) :
    Option (Except DeepEqualFailure Unit) :=
  (diff H fuel [] actual expected).map fun differences =>
    if differences.length > 0 then
      .error ⟨"Values are not deeply equal".data, actual, expected, differences⟩
    else .ok ()

/-! ## withSandbox (src/index.js)

Only the attachment of the sandbox container to `document.body` matters to
the cleanup claim.  The body's child list is modelled as a list of node
identifiers; a real DOM node is attached in at most one place, which enters
the theorem as a count hypothesis on the callback's effect.  The callback
receives the document with the sandbox appended and yields its outcome
(normal value or raised error) together with the body it leaves behind. -/

/-- `document.body.removeChild(n)`: remove the child if present, else the
DOM throws `NotFoundError` (modelled `none`). -/
def removeChild (body : List Nat) (n : Nat) : Option (List Nat) :=
  if n ∈ body then some (body.erase n) else none

/-- Outcome of `withSandbox`: the callback's result, a callback error, or
the `NotFoundError` of the final `removeChild` (which supersedes the
callback's outcome, as a `finally` clause does). -/
inductive SandboxOutcome (α : Type) where
  | ok (a : α)
  | callbackError (e : JsError)
  | removeChildError
deriving Repr

/-- `withSandbox(fn)`: append the (fresh, hence previously detached) sandbox
node to the body, run the callback on the resulting document, then in a
`finally` clause remove the sandbox; an exception in the `finally` replaces
the callback's outcome. -/
def withSandbox (body : List Nat) (sandbox : Nat)
    (fn : List Nat → Except JsError α × List Nat) :
    SandboxOutcome α × List Nat :=
  let body1 := body ++ [sandbox]
  let (r, body2) := fn body1
  match removeChild body2 sandbox with
  | some body3 =>
    (match r with
     | .ok a => (.ok a, body3)
     | .error e => (.callbackError e, body3))
  | none => (.removeChildError, body2)

/-! ## Concrete inputs used by witnesses and counterexamples -/

/-- A self-referential heap: every address holds an object whose `self`
property points back to itself. -/
def cyclicHeap : JsHeap := fun n => [("self".data, .ref n)]

/-- The heap of the concrete scenario of C3:
address 0 holds `{a: 1, b: ref 1}` with `ref 1 = {c: 2}`, and
address 2 holds `{a: 1, b: ref 3}` with `ref 3 = {c: 3}`. -/
def heapC3 : JsHeap := fun n =>
  match n with
  | 0 => [("a".data, .num 1), ("b".data, .ref 1)]
  | 1 => [("c".data, .num 2)]
  | 2 => [("a".data, .num 1), ("b".data, .ref 3)]
  | 3 => [("c".data, .num 3)]
  | _ => []

/-- The heap of the C4 counterexample: address 0 holds `{x: undefined}`,
address 1 holds `{}`.  The own key `x` is present in exactly one operand. -/
def heapC4 : JsHeap := fun n =>
  match n with
  | 0 => [("x".data, .undefined)]
  | _ => []

/-- The heap of the C4 witness: address 0 holds `{x: 5}`, address 1 `{}`. -/
def heapC4w : JsHeap := fun n =>
  match n with
  | 0 => [("x".data, .num 5)]
  | _ => []

/-! ## Lemmas about the run loop -/

lemma foldl_runTest (q : List TestCase) :
    ∀ s : RunnerState, q.foldl runTest s =
      ⟨s.passed + q.countP (fun tc => tc.outcome.isNone),
       s.failed + q.countP (fun tc => tc.outcome.isSome),
       s.total,
       s.testResults ++ q.map mkRunResult,
       s.testQueue⟩ := by
  induction q with
  | nil => intro s; simp
  | cons tc rest ih =>
    intro s
    rw [List.foldl_cons, ih]
    cases h : tc.outcome with
    | none =>
      simp only [runTest, h]
      rw [List.countP_cons_of_pos _ _ (by simp [h]),
        List.countP_cons_of_neg _ _ (by simp [h])]
      congr 1 <;> first | omega | simp [mkRunResult, h]
    | some e =>
      simp only [runTest, h]
      rw [List.countP_cons_of_neg _ _ (by simp [h]),
        List.countP_cons_of_pos _ _ (by simp [h])]
      congr 1 <;> first | omega | simp [mkRunResult, h]

lemma foldl_enqueueTest (tcs : List TestCase) :
    ∀ s : RunnerState, tcs.foldl enqueueTest s =
      { s with testQueue := s.testQueue ++ tcs } := by
  induction tcs with
  | nil => intro s; simp
  | cons tc rest ih =>
    intro s
    rw [List.foldl_cons, ih]
    simp [enqueueTest]

lemma runPendingTests_of_ne_nil (st : RunnerState) (d : Str)
    (h : st.testQueue ≠ []) :
    runPendingTests st d =
      (⟨st.testQueue.countP (fun tc => tc.outcome.isNone),
        st.testQueue.countP (fun tc => tc.outcome.isSome),
        st.testQueue.length,
        st.testQueue.map mkRunResult, []⟩,
       some (logSummaryRet (st.testQueue.countP (fun tc => tc.outcome.isSome))),
       some (logSummaryLines st.testQueue.length
         (st.testQueue.map mkRunResult)
         (st.testQueue.countP (fun tc => tc.outcome.isNone))
         (st.testQueue.countP (fun tc => tc.outcome.isSome)) d)) := by
  unfold runPendingTests
  rw [if_neg h]
  simp only [foldl_runTest]
  simp

/-! ## Claims C5, C6, C7, C9: the run loop -/

lemma logSummaryRet_eq_true_iff (n : Nat) : logSummaryRet n = true ↔ n = 0 := by
  unfold logSummaryRet
  split <;> simp <;> omega

lemma runPendingTests_of_nil (st : RunnerState) (d : Str)
    (h : st.testQueue = []) : runPendingTests st d = (st, none, none) := by
  unfold runPendingTests
  rw [if_pos h]

/-- C5: for every batch of N registered tests executed in one run, the
resulting RunResult list has length exactly N and its entries appear in
registration order, each carrying the corresponding test's name (test bodies
are awaited one at a time by the run loop, so suspension points do not
reorder results). -/
theorem c5_results_length_and_registration_order
    (st0 : RunnerState) (tcs : List TestCase) (d : Str)
    (h0 : st0.testQueue = []) (hne : tcs ≠ []) :
    (tcs.foldl enqueueTest st0).testQueue = tcs ∧
    ((runPendingTests (tcs.foldl enqueueTest st0) d).1).testResults.length
      = tcs.length ∧
    ((runPendingTests (tcs.foldl enqueueTest st0) d).1).testResults.map
        (fun rr => rr.name)
      = tcs.map (fun tc => tc.name) := by
  have hq : (tcs.foldl enqueueTest st0).testQueue = tcs := by
    rw [foldl_enqueueTest]; simp [h0]
  refine ⟨hq, ?_, ?_⟩ <;>
    rw [runPendingTests_of_ne_nil _ _ (by rw [hq]; exact hne), hq]
  · simp
  · simp only [List.map_map]
    refine List.map_congr_left ?_
    intro tc _
    cases h : tc.outcome <;> simp [mkRunResult, h]

/-- Witness for C5 at a concrete two-test batch. -/
theorem c5_results_length_and_registration_order_witness :
    ((([⟨"a".data, none⟩, ⟨"b".data, some (.plainError "boom".data)⟩] :
        List TestCase).foldl enqueueTest ⟨0, 0, 0, [], []⟩).testQueue =
      [⟨"a".data, none⟩, ⟨"b".data, some (.plainError "boom".data)⟩]) ∧
    ((runPendingTests (([⟨"a".data, none⟩,
          ⟨"b".data, some (.plainError "boom".data)⟩] :
        List TestCase).foldl enqueueTest ⟨0, 0, 0, [], []⟩)
        "0.001".data).1).testResults.length = 2 ∧
    ((runPendingTests (([⟨"a".data, none⟩,
          ⟨"b".data, some (.plainError "boom".data)⟩] :
        List TestCase).foldl enqueueTest ⟨0, 0, 0, [], []⟩)
        "0.001".data).1).testResults.map (fun rr => rr.name) =
      ["a".data, "b".data] :=
  c5_results_length_and_registration_order ⟨0, 0, 0, [], []⟩ _ _ rfl
    (by decide)

/-- C6: a raising test body never prevents the remaining tests of the batch
from running (the result list covers the whole batch), and at the end of the
run `failed` is exactly the number of raising bodies while `passed` is
exactly the number of bodies that completed without raising. -/
theorem c6_failure_isolation_and_exact_counters
    (st : RunnerState) (d : Str) (hne : st.testQueue ≠ []) :
    ((runPendingTests st d).1).testResults.length = st.testQueue.length ∧
    ((runPendingTests st d).1).failed
      = st.testQueue.countP (fun tc => tc.outcome.isSome) ∧
    ((runPendingTests st d).1).passed
      = st.testQueue.countP (fun tc => tc.outcome.isNone) := by
  rw [runPendingTests_of_ne_nil _ _ hne]
  exact ⟨by simp, rfl, rfl⟩

/-- Witness for C6: one passing and two raising bodies. -/
theorem c6_failure_isolation_and_exact_counters_witness :
    ((runPendingTests
        ⟨0, 0, 0, [],
          [⟨"p".data, none⟩,
           ⟨"q".data, some (.plainError "x".data)⟩,
           ⟨"r".data, some (.assertionError [])⟩]⟩ "0.002".data).1).testResults.length
        = 3 ∧
    ((runPendingTests
        ⟨0, 0, 0, [],
          [⟨"p".data, none⟩,
           ⟨"q".data, some (.plainError "x".data)⟩,
           ⟨"r".data, some (.assertionError [])⟩]⟩ "0.002".data).1).failed = 2 ∧
    ((runPendingTests
        ⟨0, 0, 0, [],
          [⟨"p".data, none⟩,
           ⟨"q".data, some (.plainError "x".data)⟩,
           ⟨"r".data, some (.assertionError [])⟩]⟩ "0.002".data).1).passed = 1 := by
  have h := c6_failure_isolation_and_exact_counters
    ⟨0, 0, 0, [],
      [⟨"p".data, none⟩,
       ⟨"q".data, some (.plainError "x".data)⟩,
       ⟨"r".data, some (.assertionError [])⟩]⟩ "0.002".data (by decide)
  exact ⟨h.1, h.2.1.trans (by decide), h.2.2.trans (by decide)⟩

/-- C7: a run over a nonempty queue returns the boolean computed by
`logSummary`, which is `true` exactly when the run's `failed` counter is
zero; firing the run with an empty pending queue is a no-op: the state is
unchanged, no value is returned (JavaScript `undefined`) and no report is
printed. -/
theorem c7_return_value_and_empty_noop (st : RunnerState) (d : Str) :
    (st.testQueue = [] → runPendingTests st d = (st, none, none)) ∧
    (st.testQueue ≠ [] →
      ∃ st' lines,
        runPendingTests st d = (st', some (logSummaryRet st'.failed), some lines) ∧
        (logSummaryRet st'.failed = true ↔ st'.failed = 0)) := by
  constructor
  · exact runPendingTests_of_nil st d
  · intro h
    rw [runPendingTests_of_ne_nil _ _ h]
    exact ⟨_, _, rfl, logSummaryRet_eq_true_iff _⟩

/-- Witness for C7, at an empty-queue state and at a one-failure state. -/
theorem c7_return_value_and_empty_noop_witness :
    (runPendingTests ⟨3, 1, 4, [], []⟩ "0.1".data = (⟨3, 1, 4, [], []⟩, none, none)) ∧
    ∃ st' lines,
      runPendingTests ⟨0, 0, 0, [], [⟨"t".data, some (.plainError "e".data)⟩]⟩
          "0.1".data =
        (st', some (logSummaryRet st'.failed), some lines) ∧
      (logSummaryRet st'.failed = true ↔ st'.failed = 0) :=
  ⟨(c7_return_value_and_empty_noop ⟨3, 1, 4, [], []⟩ "0.1".data).1 rfl,
   (c7_return_value_and_empty_noop _ "0.1".data).2 (by decide)⟩

/-- C9: running a batch consumes the pending queue, so a second firing of
the run trigger with no registrations in between is a no-op: the state is
left exactly as the first run left it, nothing is returned and no report is
emitted. -/
theorem c9_second_run_is_noop (st : RunnerState) (d d' : Str) :
    runPendingTests (runPendingTests st d).1 d' =
      ((runPendingTests st d).1, none, none) := by
  refine runPendingTests_of_nil _ _ ?_
  by_cases h : st.testQueue = []
  · rw [runPendingTests_of_nil _ _ h]
    exact h
  · rw [runPendingTests_of_ne_nil _ _ h]

/-! ## Claims C3, C4, C10: assert.deepEqual and its diff -/

lemma mem_foldl_setInsert (l : List Str) :
    ∀ (acc : List Str) (a : Str),
      a ∈ l.foldl (fun acc k => if k ∈ acc then acc else acc ++ [k]) acc ↔
        a ∈ acc ∨ a ∈ l := by
  induction l with
  | nil => intro acc a; simp
  | cons k rest ih =>
    intro acc a
    rw [List.foldl_cons]
    by_cases hk : k ∈ acc
    · rw [if_pos hk, ih]
      simp only [List.mem_cons]
      constructor
      · rintro (h | h)
        · exact Or.inl h
        · exact Or.inr (Or.inr h)
      · rintro (h | h | h)
        · exact Or.inl h
        · exact Or.inl (h ▸ hk)
        · exact Or.inr h
    · rw [if_neg hk, ih]
      simp [List.mem_append, or_assoc]

lemma mem_setOrdered (l : List Str) (a : Str) : a ∈ setOrdered l ↔ a ∈ l := by
  unfold setOrdered
  rw [mem_foldl_setInsert]
  simp

lemma jsGet_of_not_mem (props : List (Str × JsVal)) (k : Str)
    (h : k ∉ props.map (fun p => p.1)) : jsGet props k = .undefined := by
  unfold jsGet
  have hf : props.find? (fun p => p.1 = k) = none := by
    rw [List.find?_eq_none]
    intro x hx
    simp only [decide_eq_true_eq]
    intro hxk
    exact h (List.mem_map.2 ⟨x, hx, hxk⟩)
  rw [hf]

lemma jsStrictEq_eq_false_of_ne (a b : JsVal) (h : a ≠ b) :
    jsStrictEq a b = false := by
  unfold jsStrictEq
  split
  · rfl
  · simp [h]

/-- One unfolding step of `diff` against a non-object, non-identical
operand pair: the primitive rule yields exactly one difference. -/
lemma diff_prim_right (H : JsHeap) (fuel : Nat) (path : List Str)
    (a b : JsVal) (hne : a ≠ b) (hb : isObject b = false) :
    diff H (fuel + 1) path a b = some [⟨path, a, b⟩] := by
  unfold diff
  rw [if_neg (by simp [jsStrictEq_eq_false_of_ne _ _ hne]),
    if_pos (by simp [hb])]

/-- Counterexample to C10 as stated: at `x = NaN`, `assert.deepEqual(x, x)`
raises.  `NaN === NaN` is false, so `diff` does not short-circuit,
`isObject(NaN)` is false, and the primitive rule yields one Difference at
the root; `deepEqual` then throws the `AssertionError` carrying it. -/
theorem c10_counterexample :
    diff cyclicHeap 1 [] .nan .nan = some [⟨[], .nan, .nan⟩] ∧
    deepEqual cyclicHeap 1 .nan .nan =
      some (Except.error
        ⟨"Values are not deeply equal".data, .nan, .nan,
          [⟨[], .nan, .nan⟩]⟩) :=
  ⟨rfl, rfl⟩

/-- C10, amended: for every heap — cyclic object graphs included — and
every value `x` that is strictly equal to itself (`x === x`, i.e. every
value except `NaN`), `assert.deepEqual(x, x)` raises nothing: `diff`
short-circuits on `===` identity before any key traversal, so the
generator yields the empty difference sequence without consuming recursion
depth, although it has no cycle guard. -/
theorem c10_deepEqual_self_empty (H : JsHeap) (fuel : Nat) (path : List Str)
    (x : JsVal) (hfuel : 1 ≤ fuel) (hx : jsStrictEq x x = true) :
    diff H fuel path x x = some [] ∧
    deepEqual H fuel x x = some (Except.ok ()) := by
  obtain ⟨f, rfl⟩ : ∃ f, fuel = f + 1 :=
    ⟨fuel - 1, by omega⟩
  have hd : ∀ p, diff H (f + 1) p x x = some [] := by
    intro p
    unfold diff
    rw [if_pos hx]
  refine ⟨hd path, ?_⟩
  unfold deepEqual
  rw [hd []]
  simp

/-- Witness for amended C10 on a cyclic object graph, at the minimum
fuel. -/
theorem c10_deepEqual_self_empty_witness :
    diff cyclicHeap 1 [] (.ref 0) (.ref 0) = some [] ∧
    deepEqual cyclicHeap 1 (.ref 0) (.ref 0) = some (Except.ok ()) :=
  c10_deepEqual_self_empty cyclicHeap 1 [] (.ref 0) (by decide) (by decide)

/-- C3: `assert.deepEqual(actual, expected)` raises exactly when the
difference sequence of the structural diff is nonempty, and the raised
failure carries the full difference list; concretely,
`deepEqual({a:1,b:{c:2}}, {a:1,b:{c:3}})` fails with exactly one
Difference, at path `["b","c"]`, with actual `2` and expected `3`. -/
theorem c3_deepEqual_raises_iff_diff_nonempty :
    (∀ (H : JsHeap) (fuel : Nat) (a b : JsVal) (ds : List Difference),
      diff H fuel [] a b = some ds →
      ((∃ f, deepEqual H fuel a b = some (Except.error f) ∧ f.differences = ds)
          ↔ ds ≠ []) ∧
      (ds = [] → deepEqual H fuel a b = some (Except.ok ()))) ∧
    deepEqual heapC3 3 (.ref 0) (.ref 2) =
      some (Except.error
        ⟨"Values are not deeply equal".data, .ref 0, .ref 2,
          [⟨["b".data, "c".data], .num 2, .num 3⟩]⟩) := by
  constructor
  · intro H fuel a b ds h
    unfold deepEqual
    rw [h]
    cases ds with
    | nil =>
      constructor
      · simp
      · intro _; simp
    | cons d rest =>
      constructor
      · simp
      · intro hds; cases hds
  · rfl

/-- Witness for C3's general part, at the concrete scenario's inputs. -/
theorem c3_deepEqual_raises_iff_diff_nonempty_witness :
    ((∃ f, deepEqual heapC3 3 (.ref 0) (.ref 2) = some (Except.error f) ∧
        f.differences = [⟨["b".data, "c".data], .num 2, .num 3⟩])
      ↔ ([⟨["b".data, "c".data], .num 2, .num 3⟩] : List Difference) ≠ []) ∧
    (([⟨["b".data, "c".data], .num 2, .num 3⟩] : List Difference) = [] →
      deepEqual heapC3 3 (.ref 0) (.ref 2) = some (Except.ok ())) :=
  c3_deepEqual_raises_iff_diff_nonempty.1 heapC3 3 (.ref 0) (.ref 2)
    [⟨["b".data, "c".data], .num 2, .num 3⟩] (by decide)

/-- Counterexample to C4 as stated: with operands `{x: undefined}` and `{}`,
the key `x` is an own key of exactly one operand, yet the structural diff
yields no Difference at all — the present value `undefined` compares `===`
to the absent side's `undefined` read. -/
theorem c4_counterexample :
    ("x".data ∈ (heapC4 0).map (fun p => p.1) ∧
      "x".data ∉ (heapC4 1).map (fun p => p.1)) ∧
    diff heapC4 2 [] (.ref 0) (.ref 1) = some [] := by
  refine ⟨⟨by decide, by decide⟩, ?_⟩
  rfl

/-- C4, amended: for composite (object) operands and an own key present in
exactly one of them, the diff at that key compares the present value against
`undefined` (the absent side reads as `undefined`), and — provided the
present value is not itself `undefined` — yields exactly one Difference at
the path extended by that key. -/
theorem c4_amended_absent_key_vs_undefined
    (H : JsHeap) (fuel : Nat) (path : List Str) (ra rb : Nat) (k : Str)
    (hmem : (k ∈ (H ra).map (fun p => p.1) ∧ k ∉ (H rb).map (fun p => p.1)) ∨
            (k ∉ (H ra).map (fun p => p.1) ∧ k ∈ (H rb).map (fun p => p.1))) :
    k ∈ setOrdered ((H ra).map (fun p => p.1) ++ (H rb).map (fun p => p.1)) ∧
    (k ∉ (H rb).map (fun p => p.1) →
      jsGet (H rb) k = .undefined ∧
      (jsGet (H ra) k ≠ .undefined →
        diff H (fuel + 1) (path ++ [k]) (jsGet (H ra) k) (jsGet (H rb) k) =
          some [⟨path ++ [k], jsGet (H ra) k, .undefined⟩])) ∧
    (k ∉ (H ra).map (fun p => p.1) →
      jsGet (H ra) k = .undefined ∧
      (jsGet (H rb) k ≠ .undefined →
        diff H (fuel + 1) (path ++ [k]) (jsGet (H ra) k) (jsGet (H rb) k) =
          some [⟨path ++ [k], .undefined, jsGet (H rb) k⟩])) := by
  refine ⟨?_, ?_, ?_⟩
  · rw [mem_setOrdered, List.mem_append]
    rcases hmem with ⟨h, _⟩ | ⟨_, h⟩
    · exact Or.inl h
    · exact Or.inr h
  · intro hb
    have hbu : jsGet (H rb) k = .undefined := jsGet_of_not_mem _ _ hb
    refine ⟨hbu, ?_⟩
    intro hau
    rw [hbu]
    exact diff_prim_right H fuel _ _ _ (by simpa using hau) rfl
  · intro ha
    have hau : jsGet (H ra) k = .undefined := jsGet_of_not_mem _ _ ha
    refine ⟨hau, ?_⟩
    intro hbu
    rw [hau]
    unfold diff
    rw [if_neg (by simp [jsStrictEq_eq_false_of_ne _ _ (fun h => hbu h.symm)]),
      if_pos (by simp [isObject])]

/-- Witness for amended C4: `{x: 5}` against `{}` at key `x`. -/
theorem c4_amended_absent_key_vs_undefined_witness :
    "x".data ∈ setOrdered ((heapC4w 0).map (fun p => p.1) ++
        (heapC4w 1).map (fun p => p.1)) ∧
    ("x".data ∉ (heapC4w 1).map (fun p => p.1) →
      jsGet (heapC4w 1) "x".data = .undefined ∧
      (jsGet (heapC4w 0) "x".data ≠ .undefined →
        diff heapC4w 1 (["p".data] ++ ["x".data])
            (jsGet (heapC4w 0) "x".data) (jsGet (heapC4w 1) "x".data) =
          some [⟨["p".data] ++ ["x".data], jsGet (heapC4w 0) "x".data, .undefined⟩])) ∧
    ("x".data ∉ (heapC4w 0).map (fun p => p.1) →
      jsGet (heapC4w 0) "x".data = .undefined ∧
      (jsGet (heapC4w 1) "x".data ≠ .undefined →
        diff heapC4w 1 (["p".data] ++ ["x".data])
            (jsGet (heapC4w 0) "x".data) (jsGet (heapC4w 1) "x".data) =
          some [⟨["p".data] ++ ["x".data], .undefined, jsGet (heapC4w 1) "x".data⟩])) :=
  c4_amended_absent_key_vs_undefined heapC4w 0 ["p".data] 0 1 "x".data
    (Or.inl ⟨by decide, by decide⟩)

/-! ## Claim C8: sandbox cleanup -/

/-- C8: for every callback passed to `withSandbox`, after `withSandbox`
returns or raises the sandbox container is no longer attached to the
document: the `finally` clause removes it on every exit path, and even when
the callback itself already detached it (making the final `removeChild`
raise), it stays detached.  A DOM node is attached in at most one place,
which is the `count ≤ 1` hypothesis on the document the callback leaves
behind. -/
theorem c8_sandbox_detached_on_every_exit {α : Type}
    (body : List Nat) (sandbox : Nat)
    (fn : List Nat → Except JsError α × List Nat)
    (huniq : ((fn (body ++ [sandbox])).2).count sandbox ≤ 1) :
    sandbox ∉ (withSandbox body sandbox fn).2 := by
  unfold withSandbox
  rcases hfn : fn (body ++ [sandbox]) with ⟨r, body2⟩
  replace huniq : body2.count sandbox ≤ 1 := by simpa [hfn] using huniq
  simp only [hfn]
  unfold removeChild
  by_cases hmem : sandbox ∈ body2
  · rw [if_pos hmem]
    have hc : body2.count sandbox = 1 := by
      have h1 : 1 ≤ body2.count sandbox := List.one_le_count_iff.2 hmem
      omega
    have : (body2.erase sandbox).count sandbox = 0 := by
      rw [List.count_erase_self, hc]
    cases r <;> simpa using List.count_eq_zero.1 this
  · rw [if_neg hmem]
    exact hmem

/-- Witness for C8: a callback that returns normally and leaves the
document unchanged. -/
theorem c8_sandbox_detached_on_every_exit_witness :
    (0 : Nat) ∉ (withSandbox [] 0
      (fun d => ((Except.ok 7 : Except JsError Nat), d))).2 :=
  c8_sandbox_detached_on_every_exit [] 0
    (fun d => ((Except.ok 7 : Except JsError Nat), d)) (by decide)

/-! ## Claim C2: extraction of a summary-only message list -/

/-- Counterexample to C2 as stated: on exactly the two lines
`"📊 Tests: 3"` and `"✅ Passed: 1"` the extraction does not return 3
synthetic records — it returns a single record, because the summary line
`"✅ Passed: 1"` itself starts with the per-case pass marker `"✅ "`. -/
theorem c2_counterexample :
    (extractTestResults ["📊 Tests: 3".data, "✅ Passed: 1".data]).length = 1 := by
  rfl

/-- C2, amended: on exactly the two lines `"📊 Tests: 3"` and
`"✅ Passed: 1"`, extraction returns the single record named `"Passed: 1"`
with status `"passed"`: the `"✅ Passed: 1"` line matches the per-case pass
marker, so `results` is nonempty and the synthetic-record branch (which the
claim expected) is never reached. -/
theorem c2_amended_summary_line_matches_pass_marker :
    extractTestResults ["📊 Tests: 3".data, "✅ Passed: 1".data] =
      [⟨"Passed: 1".data, "passed".data, none⟩] := by
  rfl

/-! ## Claim C1: extracting the reporter's own output -/

lemma not_isPrefixOf_of_head_ne {a b : Char} (h : a ≠ b) (as bs : Str) :
    List.isPrefixOf (a :: as) (b :: bs) = false := by
  show (a == b && List.isPrefixOf as bs) = false
  have hab : (a == b) = false := by simp [h]
  rw [hab, Bool.false_and]

lemma isPrefixOf_self_append (p rest : Str) :
    List.isPrefixOf p (p ++ rest) = true := by
  rw [List.isPrefixOf_iff_prefix]
  exact List.prefix_append p rest

lemma jsReplaceFirst_marker (marker rest : Str) (hm : marker ≠ []) :
    jsReplaceFirst (marker ++ rest) marker [] = rest := by
  unfold jsReplaceFirst
  rw [if_neg hm]
  cases marker with
  | nil => exact absurd rfl hm
  | cons m ms =>
    rw [List.cons_append]
    unfold replaceFirstAux
    rw [if_pos (by rw [← List.cons_append]; exact isPrefixOf_self_append _ _)]
    rw [← List.cons_append, List.drop_left, List.nil_append]

lemma lineRecord_pass (name : Str) :
    lineRecord ("✅ ".data ++ name) = [⟨jsTrim name, "passed".data, none⟩] := by
  unfold lineRecord
  rw [if_pos (isPrefixOf_self_append _ _),
    jsReplaceFirst_marker _ _ (by decide)]

lemma lineRecord_fail (name : Str) :
    lineRecord ("❌ ".data ++ name) =
      [⟨jsTrim name, "failed".data, some "Test assertion failed".data⟩] := by
  unfold lineRecord
  have h1 : List.isPrefixOf "✅ ".data ("❌ ".data ++ name) = false := by
    have : "❌ ".data ++ name = '❌' :: (" ".data ++ name) := rfl
    rw [this]
    exact not_isPrefixOf_of_head_ne (by decide) _ _
  rw [h1]
  simp only [Bool.false_eq_true, if_false]
  rw [if_pos (isPrefixOf_self_append _ _),
    jsReplaceFirst_marker _ _ (by decide)]

lemma lineRecord_none (l : Str)
    (h1 : List.isPrefixOf "✅ ".data l = false)
    (h2 : List.isPrefixOf "❌ ".data l = false) :
    lineRecord l = [] := by
  unfold lineRecord
  rw [h1, h2]
  simp

lemma lineRecord_of_head_ne (l rest : Str) (hl : l ≠ [])
    (h1 : l.head? ≠ some '✅') (h2 : l.head? ≠ some '❌') :
    lineRecord (l ++ rest) = [] := by
  cases l with
  | nil => exact absurd rfl hl
  | cons a as =>
    simp only [List.head?_cons, ne_eq, Option.some.injEq] at h1 h2
    rw [List.cons_append]
    exact lineRecord_none _ (not_isPrefixOf_of_head_ne (fun h => h1 h.symm) _ _)
      (not_isPrefixOf_of_head_ne (fun h => h2 h.symm) _ _)

lemma recordsOf_append (xs ys : List Str) :
    recordsOf (xs ++ ys) = recordsOf xs ++ recordsOf ys := by
  unfold recordsOf
  exact List.flatMap_append xs ys lineRecord

lemma recordsOf_eq_nil_of (ls : List Str) (h : ∀ l ∈ ls, lineRecord l = []) :
    recordsOf ls = [] := by
  induction ls with
  | nil => rfl
  | cons l rest ih =>
    unfold recordsOf
    rw [List.flatMap_cons, h l (List.mem_cons_self l rest)]
    exact ih fun x hx => h x (List.mem_cons_of_mem l hx)

lemma headerStep_results (st : ExtractState) (l : Str) :
    (headerStep st l).results = st.results := by
  unfold headerStep
  split
  · split <;> rfl
  · rfl

lemma headerStep_passedTests (st : ExtractState) (l : Str) :
    (headerStep st l).passedTests = st.passedTests := by
  unfold headerStep
  split
  · split <;> rfl
  · rfl

lemma extractStep_results (st : ExtractState) (l : Str) :
    (extractStep st l).results = st.results ++ lineRecord l := by
  unfold extractStep lineRecord
  by_cases h1 : List.isPrefixOf "✅ ".data l
  · simp only [h1, if_true, headerStep_results]
  · simp only [h1, Bool.false_eq_true, if_false]
    by_cases h2 : List.isPrefixOf "❌ ".data l
    · simp only [h2, if_true, headerStep_results]
    · simp only [h2, Bool.false_eq_true, if_false, headerStep_results,
        List.append_nil]

lemma foldl_extractStep_results (ls : List Str) :
    ∀ st : ExtractState,
      (ls.foldl extractStep st).results = st.results ++ recordsOf ls := by
  induction ls with
  | nil => intro st; simp [recordsOf]
  | cons l rest ih =>
    intro st
    rw [List.foldl_cons, ih, extractStep_results]
    unfold recordsOf
    rw [List.flatMap_cons, List.append_assoc]

lemma natToTextAux_ends (fuel n : Nat) :
    ∃ ds : Str, natToTextAux (fuel + 1) n = ds ++ [decDigitChar (n % 10)] := by
  unfold natToTextAux
  by_cases h : n < 10
  · rw [if_pos h]
    refine ⟨[], ?_⟩
    rw [List.nil_append]
    unfold decDigitChar
    have : n % 10 % 10 = n % 10 := Nat.mod_mod_of_dvd n (by omega)
    rw [this]
  · rw [if_neg h]
    exact ⟨_, rfl⟩

lemma natToText_ends (n : Nat) :
    ∃ ds : Str, natToText n = ds ++ [decDigitChar (n % 10)] :=
  natToTextAux_ends n n

lemma isJsSpace_decDigitChar (m : Nat) : isJsSpace (decDigitChar m) = false := by
  unfold decDigitChar
  have h : m % 10 < 10 := Nat.mod_lt _ (by omega)
  interval_cases hm : m % 10 <;> decide

lemma jsTrim_eq_self_of_ends (c : Char) (mid : Str) (e : Char)
    (hc : isJsSpace c = false) (he : isJsSpace e = false) :
    jsTrim (c :: (mid ++ [e])) = c :: (mid ++ [e]) := by
  unfold jsTrim
  rw [List.dropWhile_cons, if_neg (by rw [hc]; exact Bool.false_ne_true)]
  have hrev : (c :: (mid ++ [e])).reverse = e :: (mid.reverse ++ [c]) := by
    simp
  rw [hrev, List.dropWhile_cons, if_neg (by rw [he]; exact Bool.false_ne_true),
    ← hrev, List.reverse_reverse]

lemma jsTrim_label_num (c : Char) (mid : Str)
    (hc : isJsSpace c = false) (p : Nat) :
    jsTrim ((c :: mid) ++ natToText p) = (c :: mid) ++ natToText p := by
  obtain ⟨ds, hds⟩ := natToText_ends p
  rw [hds]
  have hshape : (c :: mid) ++ (ds ++ [decDigitChar (p % 10)]) =
      c :: ((mid ++ ds) ++ [decDigitChar (p % 10)]) := by
    simp [List.append_assoc]
  rw [hshape]
  exact jsTrim_eq_self_of_ends c (mid ++ ds) (decDigitChar (p % 10)) hc
    (isJsSpace_decDigitChar (p % 10))

lemma recordsOf_singleton (l : Str) : recordsOf [l] = lineRecord l := by
  simp [recordsOf]

lemma recordsOf_resultLines (r : RunResult)
    (herr : ∀ e, r.error = some e → ∀ l ∈ errorLines e,
      List.isPrefixOf "✅ ".data l = false ∧
      List.isPrefixOf "❌ ".data l = false) :
    recordsOf (resultLines r) =
      [⟨jsTrim r.name,
        if r.passed then "passed".data else "failed".data,
        if r.passed then none else some "Test assertion failed".data⟩] := by
  unfold resultLines
  by_cases hp : r.passed
  · rw [if_pos hp, if_pos hp, if_pos hp, recordsOf_singleton, lineRecord_pass]
  · rw [if_neg hp, if_neg hp, if_neg hp]
    unfold recordsOf
    rw [List.flatMap_cons, lineRecord_fail]
    have hnil : (match r.error with
        | some e => errorLines e
        | none => ([] : List Str)).flatMap lineRecord = [] := by
      cases he : r.error with
      | none => rfl
      | some e =>
        exact recordsOf_eq_nil_of _ fun l hl =>
          lineRecord_none l (herr e he l hl).1 (herr e he l hl).2
    rw [hnil, List.append_nil]

lemma recordsOf_resultBlock (q : List TestCase)
    (herr : ∀ tc ∈ q, ∀ e, tc.outcome = some e → ∀ l ∈ errorLines e,
      List.isPrefixOf "✅ ".data l = false ∧
      List.isPrefixOf "❌ ".data l = false) :
    recordsOf ((q.map mkRunResult).flatMap resultLines) =
      q.map (fun tc =>
        ⟨jsTrim tc.name,
         if tc.outcome.isNone then "passed".data else "failed".data,
         if tc.outcome.isNone then none
         else some "Test assertion failed".data⟩) := by
  induction q with
  | nil => rfl
  | cons tc rest ih =>
    have hrest := fun tc' h' => herr tc' (List.mem_cons_of_mem _ h')
    rw [List.map_cons, List.flatMap_cons, recordsOf_append, ih hrest,
      List.map_cons]
    have hhead : recordsOf (resultLines (mkRunResult tc)) =
        [⟨jsTrim tc.name,
          if tc.outcome.isNone then "passed".data else "failed".data,
          if tc.outcome.isNone then none
          else some "Test assertion failed".data⟩] := by
      cases ho : tc.outcome with
      | none =>
        have hmk : mkRunResult tc = ⟨tc.name, true, none⟩ := by
          unfold mkRunResult; rw [ho]
        rw [hmk, recordsOf_resultLines _ (by intro e he; cases he)]
        simp [ho]
      | some e0 =>
        have hmk : mkRunResult tc = ⟨tc.name, false, some e0⟩ := by
          unfold mkRunResult; rw [ho]
        rw [hmk, recordsOf_resultLines _ ?herr0]
        · simp [ho]
        · intro e he l hl
          have he0 : e = e0 := by
            simpa using congrArg (fun o => o = some e) he |>.mpr rfl |>.symm
          exact herr tc (List.mem_cons_self _ _) e (he0 ▸ ho) l hl
    rw [hhead]
    rfl

lemma recordsOf_logSummaryLines (total : Nat) (q : List TestCase) (p f : Nat)
    (d : Str)
    (herr : ∀ tc ∈ q, ∀ e, tc.outcome = some e → ∀ l ∈ errorLines e,
      List.isPrefixOf "✅ ".data l = false ∧
      List.isPrefixOf "❌ ".data l = false) :
    recordsOf (logSummaryLines total (q.map mkRunResult) p f d) =
      q.map (fun tc =>
        ⟨jsTrim tc.name,
         if tc.outcome.isNone then "passed".data else "failed".data,
         if tc.outcome.isNone then none
         else some "Test assertion failed".data⟩)
      ++ [⟨"Passed: ".data ++ natToText p, "passed".data, none⟩]
      ++ (if f > 0 then
            [⟨"Failed: ".data ++ natToText f, "failed".data,
              some "Test assertion failed".data⟩]
          else []) := by
  have h1 : recordsOf ["\n📊 Tests: ".data ++ natToText total] = [] := by
    rw [recordsOf_singleton]
    exact lineRecord_of_head_ne _ _ (by decide) (by decide) (by decide)
  have h3 : recordsOf ["\n".data] = [] := by decide
  have h4 : recordsOf ["✅ Passed: ".data ++ natToText p] =
      [⟨"Passed: ".data ++ natToText p, "passed".data, none⟩] := by
    rw [recordsOf_singleton]
    have hsplit : "✅ Passed: ".data ++ natToText p =
        "✅ ".data ++ ("Passed: ".data ++ natToText p) := rfl
    rw [hsplit, lineRecord_pass]
    have hP : ("Passed: ".data : Str) = 'P' :: "assed: ".data := rfl
    have htrim : jsTrim ("Passed: ".data ++ natToText p) =
        "Passed: ".data ++ natToText p := by
      rw [hP]
      exact jsTrim_label_num 'P' _ (by decide) p
    rw [htrim]
  have h6 : recordsOf ["⏱️ Duration: ".data ++ d ++ "s".data] = [] := by
    rw [recordsOf_singleton, List.append_assoc]
    exact lineRecord_of_head_ne _ _ (by decide) (by decide) (by decide)
  have h2 := recordsOf_resultBlock q herr
  unfold logSummaryLines
  by_cases hf : f > 0
  · rw [if_pos hf, if_pos hf, if_pos hf]
    have h5 : recordsOf ["❌ Failed: ".data ++ natToText f] =
        [⟨"Failed: ".data ++ natToText f, "failed".data,
          some "Test assertion failed".data⟩] := by
      rw [recordsOf_singleton]
      have hsplit : "❌ Failed: ".data ++ natToText f =
          "❌ ".data ++ ("Failed: ".data ++ natToText f) := rfl
      rw [hsplit, lineRecord_fail]
      have hF : ("Failed: ".data : Str) = 'F' :: "ailed: ".data := rfl
      have htrim : jsTrim ("Failed: ".data ++ natToText f) =
          "Failed: ".data ++ natToText f := by
        rw [hF]
        exact jsTrim_label_num 'F' _ (by decide) f
      rw [htrim]
    have h7 : recordsOf ["\n❌ Tests failed".data] = [] := by decide
    simp only [recordsOf_append, h1, h2, h3, h4, h5, h6, h7]
    simp
  · rw [if_neg hf, if_neg hf, if_neg hf]
    have h7 : recordsOf ["\n✅ All tests passed".data] = [] := by decide
    have h5 : recordsOf ([] : List Str) = [] := rfl
    simp only [recordsOf_append, h1, h2, h3, h4, h5, h6, h7]
    simp

lemma extractTestResults_eq_recordsOf (ls : List Str)
    (hne : recordsOf ls ≠ []) : extractTestResults ls = recordsOf ls := by
  unfold extractTestResults
  have hres : (ls.foldl extractStep ⟨[], 0, 0⟩).results = recordsOf ls := by
    rw [foldl_extractStep_results]
    exact List.nil_append _
  show (if (ls.foldl extractStep ⟨[], 0, 0⟩).results.length = 0 ∧
        0 < (ls.foldl extractStep ⟨[], 0, 0⟩).totalTests then
      syntheticResults (ls.foldl extractStep ⟨[], 0, 0⟩).totalTests
        (ls.foldl extractStep ⟨[], 0, 0⟩).passedTests
    else (ls.foldl extractStep ⟨[], 0, 0⟩).results) = recordsOf ls
  rw [hres, if_neg]
  rintro ⟨h0, _⟩
  exact hne (List.length_eq_zero.1 h0)

/-- Counterexample to C1 as stated: a completed run of a single passing test
named `t` prints a report from which the extraction recovers TWO records,
not one — the summary line `✅ Passed: 1` starts with the per-case pass
marker `✅ ` and becomes a spurious record named `Passed: 1`. -/
theorem c1_counterexample :
    (runPendingTests ⟨0, 0, 0, [], [⟨"t".data, none⟩]⟩ "0.001".data).2.2 =
      some (logSummaryLines 1 [⟨"t".data, true, none⟩] 1 0 "0.001".data) ∧
    extractTestResults
        (logSummaryLines 1 [⟨"t".data, true, none⟩] 1 0 "0.001".data) =
      [⟨"t".data, "passed".data, none⟩,
       ⟨"Passed: 1".data, "passed".data, none⟩] := by
  exact ⟨rfl, rfl⟩

/-- C1, amended: for every completed run whose test names are unchanged by
trimming and whose failure diagnostic lines do not begin with the marker
prefixes, feeding the report's lines in order to the extraction yields one
record per executed TestCase, in order, named verbatim and passed iff the
case passed — FOLLOWED by one spurious passed record named
`Passed: {passed}` produced by the summary line, and, when there were
failures, one further spurious failed record named `Failed: {failed}`. -/
theorem c1_amended_extraction_of_report (st : RunnerState) (d : Str)
    (hne : st.testQueue ≠ [])
    (hnames : ∀ tc ∈ st.testQueue, jsTrim tc.name = tc.name)
    (herr : ∀ tc ∈ st.testQueue, ∀ e, tc.outcome = some e →
      ∀ l ∈ errorLines e,
        List.isPrefixOf "✅ ".data l = false ∧
        List.isPrefixOf "❌ ".data l = false) :
    ∃ lines, (runPendingTests st d).2.2 = some lines ∧
      extractTestResults lines =
        st.testQueue.map (fun tc =>
          ⟨tc.name,
           if tc.outcome.isNone then "passed".data else "failed".data,
           if tc.outcome.isNone then none
           else some "Test assertion failed".data⟩)
        ++ [⟨"Passed: ".data ++
              natToText (st.testQueue.countP (fun tc => tc.outcome.isNone)),
            "passed".data, none⟩]
        ++ (if st.testQueue.countP (fun tc => tc.outcome.isSome) > 0 then
              [⟨"Failed: ".data ++
                  natToText (st.testQueue.countP (fun tc => tc.outcome.isSome)),
                "failed".data, some "Test assertion failed".data⟩]
            else []) := by
  rw [runPendingTests_of_ne_nil _ _ hne]
  refine ⟨_, rfl, ?_⟩
  have hrec := recordsOf_logSummaryLines st.testQueue.length st.testQueue
    (st.testQueue.countP (fun tc => tc.outcome.isNone))
    (st.testQueue.countP (fun tc => tc.outcome.isSome)) d herr
  have hnonempty : recordsOf (logSummaryLines st.testQueue.length
      (st.testQueue.map mkRunResult)
      (st.testQueue.countP (fun tc => tc.outcome.isNone))
      (st.testQueue.countP (fun tc => tc.outcome.isSome)) d) ≠ [] := by
    rw [hrec]
    simp
  rw [extractTestResults_eq_recordsOf _ hnonempty, hrec]
  have hmap : st.testQueue.map (fun tc =>
      (⟨jsTrim tc.name,
        if tc.outcome.isNone then "passed".data else "failed".data,
        if tc.outcome.isNone then none
        else some "Test assertion failed".data⟩ : ExtractedResult)) =
      st.testQueue.map (fun tc =>
      (⟨tc.name,
        if tc.outcome.isNone then "passed".data else "failed".data,
        if tc.outcome.isNone then none
        else some "Test assertion failed".data⟩ : ExtractedResult)) :=
    List.map_congr_left fun tc htc => by rw [hnames tc htc]
  rw [hmap]

/-- Witness for amended C1: a run of one passing and one failing test. -/
theorem c1_amended_extraction_of_report_witness :
    ∃ lines,
      (runPendingTests
        ⟨0, 0, 0, [],
          [⟨"good".data, none⟩,
           ⟨"bad".data, some (.plainError "boom".data)⟩]⟩ "0.004".data).2.2 =
        some lines ∧
      extractTestResults lines =
        ([⟨"good".data, none⟩,
          ⟨"bad".data, some (.plainError "boom".data)⟩] :
            List TestCase).map (fun tc =>
          ⟨tc.name,
           if tc.outcome.isNone then "passed".data else "failed".data,
           if tc.outcome.isNone then none
           else some "Test assertion failed".data⟩)
        ++ [⟨"Passed: ".data ++
              natToText (([⟨"good".data, none⟩,
                ⟨"bad".data, some (.plainError "boom".data)⟩] :
                  List TestCase).countP (fun tc => tc.outcome.isNone)),
            "passed".data, none⟩]
        ++ (if ([⟨"good".data, none⟩,
              ⟨"bad".data, some (.plainError "boom".data)⟩] :
                List TestCase).countP (fun tc => tc.outcome.isSome) > 0 then
              [⟨"Failed: ".data ++
                  natToText (([⟨"good".data, none⟩,
                    ⟨"bad".data, some (.plainError "boom".data)⟩] :
                      List TestCase).countP (fun tc => tc.outcome.isSome)),
                "failed".data, some "Test assertion failed".data⟩]
            else []) :=
  c1_amended_extraction_of_report
    ⟨0, 0, 0, [],
      [⟨"good".data, none⟩,
       ⟨"bad".data, some (.plainError "boom".data)⟩]⟩ "0.004".data
    (by decide)
    (by decide)
    (by
      intro tc htc e he l hl
      rw [List.mem_cons, List.mem_singleton] at htc
      rcases htc with rfl | rfl
      · cases he
      · have he' : JsError.plainError "boom".data = e := by
          simpa using he
        subst he'
        simp only [errorLines, List.mem_singleton] at hl
        subst hl
        exact ⟨by decide, by decide⟩)
